import Mathlib

/-!
Verification development for the Keepshot bookmark-monitoring service.

The definitions below are a shallow embedding of the Python sources:

* `ConnectionManager.*` embeds the WebSocket connection registry of
  `app/main.py` (`connect`, `disconnect`, `send_personal_message`).
* `monitor_bookmark` and its helpers embed the per-bookmark check of
  `app/services/monitor.py`, with the SQLAlchemy session modelled as a
  pair of database states (`committed`, `pending`): `db.add` and
  attribute mutation stage into `pending`, `db.commit` copies `pending`
  into `committed` (and may fail with a storage error), `db.rollback`
  resets `pending` to `committed`.
* The external AI capabilities of `app/services/ai.py` are modelled by
  an environment `Env` supplying their outcomes; the `try/except`
  fallback bodies of `extract_watchpoints`, `analyze_change_significance`
  and `generate_notification_message` are transcribed from the source.
-/

namespace Keepshot

/-! ## WebSocket connection registry (`app/main.py`) -/

/-- A WebSocket connection, identified abstractly. -/
abbrev Conn := Nat

/-- The `active_connections` dict of `ConnectionManager`: an association
list from user id to the list of connections of the user, keys unique,
in insertion order (Python dicts preserve insertion order). -/
abbrev Registry := List (String × List Conn)

namespace ConnectionManager

/-- Dict membership / lookup: `self.active_connections[user_id]`. -/
def lookup (m : Registry) (user_id : String) : Option (List Conn) :=
  (m.find? (fun e => e.1 == user_id)).map (·.2)

/-- Python `list.remove(x)`: removes the first occurrence of `x`, or
raises `ValueError` (modelled as `none`) when `x` is absent. -/
def listRemove (l : List Conn) (x : Conn) : Option (List Conn) :=
  match l with
  | [] => none
  | y :: ys =>
    if y == x then some ys
    else (listRemove ys x).map (fun r => y :: r)

/-- Replace the value stored under a key of the registry. -/
def setKey (m : Registry) (user_id : String) (l : List Conn) : Registry :=
  m.map (fun e => if e.1 == user_id then (e.1, l) else e)

/-- Delete a key from the registry (`del self.active_connections[user_id]`). -/
def delKey (m : Registry) (user_id : String) : Registry :=
  m.filter (fun e => !(e.1 == user_id))

/-- `ConnectionManager.connect` (after the accept): append the connection
to the list of the user, creating the entry when absent. -/
def connect (m : Registry) (user_id : String) (ws : Conn) : Registry :=
  match lookup m user_id with
  | none => m ++ [(user_id, [ws])]
  | some l => setKey m user_id (l ++ [ws])

/-- `ConnectionManager.disconnect`: when the user has an entry, run
`list.remove` (which raises `ValueError`, modelled `.error ()`, if the
connection is not present), and delete the entry when it becomes empty;
when the user has no entry the call is a no-op. -/
def disconnect (m : Registry) (user_id : String) (ws : Conn) :
    Except Unit Registry :=
  match lookup m user_id with
  | none => .ok m
  | some l =>
    match listRemove l ws with
    | none => .error ()
    | some l' =>
      if l'.isEmpty then .ok (delKey m user_id)
      else .ok (setKey m user_id l')

/-- `ConnectionManager.send_personal_message`: iterate over all of the
connections of the user, attempting `send_json` on each; a failing send
(`sendOk c = false`) is caught and logged and the loop continues. The
registry is not modified. Returns the registry together with the list
of `(connection, send succeeded)` outcomes, in iteration order. -/
def send_personal_message (sendOk : Conn → Bool) (m : Registry)
    (user_id : String) : Registry × List (Conn × Bool) :=
  match lookup m user_id with
  | none => (m, [])
  | some l => (m, l.map (fun c => (c, sendOk c)))

end ConnectionManager

/-! ## Data model (`app/models/*.py`)

Rows are modelled with the columns the monitor service reads or writes.
Primary keys (UUID strings in the source) are modelled as `Nat`s drawn
from a fresh-id counter; `created_at` ordering of snapshots is modelled
by keeping each table as a list in creation order. -/

/-- `Bookmark` row (`app/models/bookmark.py`), the columns used by
`monitor_bookmark`. `last_checked_at` is a nullable timestamp. -/
structure BookmarkRec where
  id : String
  user_id : String
  title : Option String
  url : Option String
  content_type : String
  last_checked_at : Option Nat
  deriving Repr, DecidableEq

/-- `Snapshot` row (`app/models/snapshot.py`). -/
structure SnapshotRec where
  id : Nat
  bookmark_id : String
  content_hash : String
  extracted_content : String
  deriving Repr, DecidableEq

/-- `WatchPoint` row (`app/models/watchpoint.py`). -/
structure WatchPointRec where
  id : Nat
  snapshot_id : Nat
  field_name : String
  field_value : String
  field_type : Option String
  is_primary : Bool
  deriving Repr, DecidableEq

/-- `Change` row (`app/models/change.py`); `significance_score` is a
`Float` column, modelled as `ℚ`. -/
structure ChangeRec where
  id : Nat
  watchpoint_id : Nat
  old_value : String
  new_value : String
  change_type : String
  significance_score : ℚ
  deriving Repr, DecidableEq

/-- `Notification` row (`app/models/notification.py`); the monitor
always creates rows with `notification_type = NotificationType.CHANGE`,
modelled by the string `"change"`. -/
structure NotificationRec where
  id : Nat
  user_id : String
  bookmark_id : String
  change_id : Nat
  notification_type : String
  title : String
  message : String
  read : Bool
  deriving Repr, DecidableEq

/-- A database state: one list per table, each in creation order, plus
the fresh-id counter used to model generated primary keys. -/
structure DB where
  bookmarks : List BookmarkRec
  snapshots : List SnapshotRec
  watchpoints : List WatchPointRec
  changes : List ChangeRec
  notifications : List NotificationRec
  nextId : Nat
  deriving Repr, DecidableEq

/-- A SQLAlchemy session over the database: `pending` is the state the
session sees (staged adds and attribute mutations included), `committed`
is the durable state. `commit` copies `pending` to `committed`;
`rollback` resets `pending` to `committed`. -/
structure Session where
  committed : DB
  pending : DB
  deriving Repr, DecidableEq

/-- `db.rollback()`. -/
def Session.rollback (s : Session) : Session :=
  { s with pending := s.committed }

/-- `db.query(Bookmark).filter(Bookmark.id == bookmark_id).first()`. -/
def DB.findBookmark (db : DB) (bookmark_id : String) : Option BookmarkRec :=
  db.bookmarks.find? (fun b => b.id == bookmark_id)

/-- `db.query(Snapshot).filter(Snapshot.bookmark_id == bookmark_id)
.order_by(Snapshot.created_at.desc()).first()`: since the snapshot list
is kept in creation order, the most recently created snapshot of a
bookmark is the last matching element. -/
def DB.latestSnapshot (db : DB) (bookmark_id : String) : Option SnapshotRec :=
  (db.snapshots.filter (fun s => s.bookmark_id == bookmark_id)).getLast?

/-- `bookmark.last_checked_at = datetime.utcnow()`: an attribute
mutation staged on the session. -/
def DB.setLastChecked (db : DB) (bookmark_id : String) (t : Nat) : DB :=
  { db with
    bookmarks := db.bookmarks.map (fun b =>
      if b.id == bookmark_id then { b with last_checked_at := some t } else b) }

/-- The `last_checked_at` column of a bookmark, `none` when the bookmark
does not exist. -/
def DB.lastCheckedOf (db : DB) (bookmark_id : String) : Option (Option Nat) :=
  (db.findBookmark bookmark_id).map (·.last_checked_at)

/-! ## External capabilities (`app/services/ai.py`, scraper, storage) -/

/-- One extracted watchpoint dict as returned by the AI extraction:
`field_type` and `is_primary` may be absent (`wp_data.get(...)`). -/
structure WpData where
  field_name : String
  field_value : String
  field_type : Option String
  is_primary : Option Bool
  deriving Repr, DecidableEq

/-- The dict parsed from the significance-analysis response; either key
may be absent (`analysis.get(...)` with defaults at the use site). -/
structure AnalyzeResult where
  significance_score : Option ℚ
  change_type : Option String
  deriving Repr, DecidableEq

/-- The dict parsed from the notification-message response; either key
may be absent. -/
structure RawMsg where
  title : Option String
  message : Option String
  deriving Repr, DecidableEq

/-- Title/message pair returned by `generate_notification_message`. -/
structure MsgResult where
  title : String
  message : String
  deriving Repr, DecidableEq

/-- Outcome of `scraper.scrape`: normalized content plus content hash,
or a raised fetch error. -/
inductive FetchOutcome
  | ok (content : String) (content_hash : String)
  | err
  deriving Repr, DecidableEq

/-- Outcome of the AI call inside `extract_watchpoints`: the parsed
watchpoint list, or a raised exception (handled by the fallback). -/
inductive ExtractOutcome
  | ok (watchpoints : List WpData)
  | failed
  deriving Repr, DecidableEq

/-- Environment of one check: outcomes of the external effects.
`commitOk k` tells whether the `k`-th `db.commit()` of the check
succeeds (a failing commit raises a storage error); `now` is the value
of `datetime.utcnow()`. -/
structure Env where
  fetch : FetchOutcome
  extract : ExtractOutcome
  analyze : String → String → String → Except Unit AnalyzeResult
  genMsg : Except Unit RawMsg
  commitOk : Nat → Bool
  now : Nat

/-- `AIService.extract_watchpoints` (`app/services/ai.py` lines 19-78):
returns the parsed watchpoint list; on any exception returns the single
fallback watchpoint `content` holding `content[:500]` with
`is_primary = True`. -/
def extract_watchpoints (env : Env) (content : String) : List WpData :=
  match env.extract with
  | .ok watchpoints => watchpoints
  | .failed =>
    [{ field_name := "content"
       field_value := content.take 500
       field_type := some "text"
       is_primary := some true }]

/-- `AIService.analyze_change_significance` (`app/services/ai.py` lines
80-155): returns the parsed dict; on any exception returns the default
`{"significance_score": 0.5, "change_type": "modified"}`. -/
def analyze_change_significance (env : Env) (field_name old_value new_value : String) :
    AnalyzeResult :=
  match env.analyze field_name old_value new_value with
  | .ok result => result
  | .error _ =>
    { significance_score := some (mkRat 1 2), change_type := some "modified" }

/-- `AIService.generate_notification_message` (`app/services/ai.py`
lines 157-228): fills in per-key defaults on the parsed dict; on any
exception returns the static fallback message. -/
def generate_notification_message (env : Env) (bookmark_title : String) : MsgResult :=
  match env.genMsg with
  | .ok result =>
    { title := result.title.getD "Bookmark Updated"
      message := result.message.getD "Your bookmark has changed." }
  | .error _ =>
    { title := "Bookmark Updated"
      message := bookmark_title ++ " has changed." }

/-- Python `a or b` for a nullable string: `None` and `""` are falsy. -/
def pyOr (a : Option String) (b : String) : String :=
  match a with
  | some s => if s == "" then b else s
  | none => b

/-! ## The per-bookmark check (`app/services/monitor.py`) -/

/-- External calls observed during a check, in order. -/
inductive Ev
  | fetchCall
  | extractCall
  | analyzeCall (field : String)
  | genMsgCall
  | sendCall
  deriving Repr, DecidableEq

/-- Running state of one check: the session, the number of
`db.commit()` calls made so far, and the trace of external calls. -/
structure Ctx where
  sess : Session
  commits : Nat
  trace : List Ev
  deriving Repr, DecidableEq

/-- Record an external call in the trace. -/
def Ctx.push (c : Ctx) (e : Ev) : Ctx :=
  { c with trace := c.trace ++ [e] }

/-- Apply a staged write to the pending state of the session. -/
def Ctx.stage (c : Ctx) (f : DB → DB) : Ctx :=
  { c with sess := { c.sess with pending := f c.sess.pending } }

/-- `db.commit()`: on success the pending state becomes durable; on
storage failure an exception is raised (`.error`), leaving both states
as they were (the surrounding handler rolls back). -/
def commitE (env : Env) (c : Ctx) : Except Ctx Ctx :=
  if env.commitOk c.commits then
    .ok { sess := { committed := c.sess.pending, pending := c.sess.pending }
          commits := c.commits + 1
          trace := c.trace }
  else
    .error { c with commits := c.commits + 1 }

/-- One entry of the `changes_detected` list built by the monitor loop
(`monitor.py` lines 134-141). -/
structure ChangeView where
  field_name : String
  old_value : String
  new_value : String
  change_type : String
  significance_score : ℚ
  change_id : Nat
  deriving Repr, DecidableEq

/-- The watchpoint-creation loop (`monitor.py` lines 78-88): one
`WatchPoint` row per extracted dict, `field_type` defaulting to null
and `is_primary` to `False`; returns the new rows paired with their
source dicts (the `new_watchpoints` list). -/
def addWatchPoints (db : DB) (snapshot_id : Nat) :
    List WpData → DB × List (WatchPointRec × WpData)
  | [] => (db, [])
  | d :: rest =>
    let wp : WatchPointRec :=
      { id := db.nextId
        snapshot_id := snapshot_id
        field_name := d.field_name
        field_value := d.field_value
        field_type := d.field_type
        is_primary := d.is_primary.getD false }
    let db' : DB :=
      { db with watchpoints := db.watchpoints ++ [wp], nextId := db.nextId + 1 }
    let r := addWatchPoints db' snapshot_id rest
    (r.1, (wp, d) :: r.2)

/-- Lookup in `old_watchpoints_map = {wp.field_name: wp for wp in
last_watchpoints}`: dict comprehension keeps the last row written for a
repeated name. -/
def lastByName (l : List WatchPointRec) (name : String) : Option WatchPointRec :=
  (l.filter (fun wp => wp.field_name == name)).getLast?

/-- The change-detection loop (`monitor.py` lines 110-148): for each new
watchpoint, look up the old row by name; when it exists and the value
differs, analyze significance, stage a `Change` row with
`analysis.get("change_type", "modified")` and
`analysis.get("significance_score", 0.5)`, commit, and append to
`changes_detected`. Absent old rows and equal values are skipped. -/
def detectChanges (env : Env) (oldMap : String → Option WatchPointRec) :
    List (WatchPointRec × WpData) → Ctx → List ChangeView →
    Except Ctx (Ctx × List ChangeView)
  | [], c, acc => .ok (c, acc)
  | (new_wp, _) :: rest, c, acc =>
    match oldMap new_wp.field_name with
    | none => detectChanges env oldMap rest c acc
    | some old_wp =>
      if old_wp.field_value ≠ new_wp.field_value then
        let analysis :=
          analyze_change_significance env new_wp.field_name
            old_wp.field_value new_wp.field_value
        let c := c.push (.analyzeCall new_wp.field_name)
        let change : ChangeRec :=
          { id := c.sess.pending.nextId
            watchpoint_id := new_wp.id
            old_value := old_wp.field_value
            new_value := new_wp.field_value
            change_type := analysis.change_type.getD "modified"
            significance_score := analysis.significance_score.getD (mkRat 1 2) }
        let c := c.stage (fun db =>
          { db with changes := db.changes ++ [change], nextId := db.nextId + 1 })
        match commitE env c with
        | .error c' => .error c'
        | .ok c' =>
          detectChanges env oldMap rest c'
            (acc ++ [{ field_name := new_wp.field_name
                       old_value := old_wp.field_value
                       new_value := new_wp.field_value
                       change_type := change.change_type
                       significance_score := change.significance_score
                       change_id := change.id }])
      else detectChanges env oldMap rest c acc

/-- The notification step (`monitor.py` lines 150-185): when
`changes_detected` is non-empty, filter to scores `>= 0.5`; when the
filtered list is non-empty, generate the message, stage one
`Notification` linked to the first significant change, commit, and send
it over WebSocket (`send_notification` catches all its own exceptions,
so the send never raises and has no database effect). -/
def notifyStep (env : Env) (bookmark : BookmarkRec) (c : Ctx)
    (changes_detected : List ChangeView) : Except Ctx Ctx :=
  if changes_detected.isEmpty then .ok c
  else
    let significant_changes :=
      changes_detected.filter (fun ch => mkRat 1 2 ≤ ch.significance_score)
    match significant_changes with
    | [] => .ok c
    | first :: _ =>
      let c := c.push .genMsgCall
      let notification_data :=
        generate_notification_message env
          (pyOr bookmark.title (pyOr bookmark.url "Your bookmark"))
      let notification : NotificationRec :=
        { id := c.sess.pending.nextId
          user_id := bookmark.user_id
          bookmark_id := bookmark.id
          change_id := first.change_id
          notification_type := "change"
          title := notification_data.title
          message := notification_data.message
          read := false }
      let c := c.stage (fun db =>
        { db with notifications := db.notifications ++ [notification]
                  nextId := db.nextId + 1 })
      match commitE env c with
      | .error c' => .error c'
      | .ok c' => .ok (c'.push .sendCall)

/-- The changed-content branch (`monitor.py` lines 59-189): stage and
commit the new snapshot, extract watchpoints, stage and commit the
`WatchPoint` rows, then either finish (first snapshot) or diff against
the watchpoints of the previous snapshot, notify, and finally stage and
commit the `last_checked_at` update. -/
def monitorChanged (env : Env) (bookmark_id : String) (bookmark : BookmarkRec)
    (content content_hash : String) (last_snapshot : Option SnapshotRec)
    (c : Ctx) : Except Ctx Ctx :=
  let new_snapshot : SnapshotRec :=
    { id := c.sess.pending.nextId
      bookmark_id := bookmark_id
      content_hash := content_hash
      extracted_content := content }
  let c := c.stage (fun db =>
    { db with snapshots := db.snapshots ++ [new_snapshot]
              nextId := db.nextId + 1 })
  (commitE env c).bind fun c =>
  let c := c.push .extractCall
  let watchpoints_data := extract_watchpoints env content
  let r := addWatchPoints c.sess.pending new_snapshot.id watchpoints_data
  let c := { c with sess := { c.sess with pending := r.1 } }
  let new_watchpoints := r.2
  (commitE env c).bind fun c =>
  match last_snapshot with
  | none =>
    let c := c.stage (fun db => db.setLastChecked bookmark_id env.now)
    commitE env c
  | some last_snapshot =>
    let last_watchpoints :=
      c.sess.pending.watchpoints.filter (fun wp => wp.snapshot_id == last_snapshot.id)
    (detectChanges env (lastByName last_watchpoints) new_watchpoints c []).bind
      fun res =>
    (notifyStep env bookmark res.1 res.2).bind fun c =>
    let c := c.stage (fun db => db.setLastChecked bookmark_id env.now)
    commitE env c

/-- The body of the `try` block of `monitor_bookmark` (`monitor.py`
lines 26-189): look up the bookmark (returning silently when absent),
fetch, and either take the no-change fast path or run the changed
branch. A raised error (`.error`) carries the state at the raise
point. -/
def monitorBody (env : Env) (bookmark_id : String) (c : Ctx) : Except Ctx Ctx :=
  match c.sess.pending.findBookmark bookmark_id with
  | none => .ok c
  | some bookmark =>
    let c := c.push .fetchCall
    match env.fetch with
    | .err => .error c
    | .ok content content_hash =>
      let last_snapshot := c.sess.pending.latestSnapshot bookmark_id
      match last_snapshot with
      | some ls =>
        if ls.content_hash == content_hash then
          let c := c.stage (fun db => db.setLastChecked bookmark_id env.now)
          commitE env c
        else
          monitorChanged env bookmark_id bookmark content content_hash
            (some ls) c
      | none =>
        monitorChanged env bookmark_id bookmark content content_hash none c

/-- Result of `monitor_bookmark`: whether the exception handler
re-raised, the final session, and the trace of external calls. -/
structure MonitorOut where
  raised : Bool
  sess : Session
  trace : List Ev
  deriving Repr, DecidableEq

/-- `monitor_bookmark` (`app/services/monitor.py`): run the body; on
any raised error, `db.rollback()` and re-raise. -/
def monitor_bookmark (env : Env) (bookmark_id : String) (sess : Session) :
    MonitorOut :=
  match monitorBody env bookmark_id { sess := sess, commits := 0, trace := [] } with
  | .ok c => { raised := false, sess := c.sess, trace := c.trace }
  | .error c => { raised := true, sess := c.sess.rollback, trace := c.trace }

/-! ## Basic lemmas about the session primitives -/

theorem commitE_of_ok (env : Env) (c : Ctx) (h : env.commitOk c.commits = true) :
    commitE env c =
      .ok { sess := { committed := c.sess.pending, pending := c.sess.pending }
            commits := c.commits + 1
            trace := c.trace } := by
  simp [commitE, h]

theorem commitE_cases (env : Env) (c : Ctx) :
    commitE env c =
      .ok { sess := { committed := c.sess.pending, pending := c.sess.pending }
            commits := c.commits + 1
            trace := c.trace } ∨
    commitE env c = .error { c with commits := c.commits + 1 } := by
  by_cases h : env.commitOk c.commits = true
  · exact .inl (by simp [commitE, h])
  · exact .inr (by simp [commitE, h])

theorem find_setLastChecked (l : List BookmarkRec) (bookmark_id : String) (t : Nat) :
    (l.map (fun b =>
        if b.id == bookmark_id then { b with last_checked_at := some t } else b)).find?
      (fun b => b.id == bookmark_id) =
    (l.find? (fun b => b.id == bookmark_id)).map
      (fun b => { b with last_checked_at := some t }) := by
  rw [List.find?_map]
  have hpg : ((fun b : BookmarkRec => b.id == bookmark_id) ∘ fun b =>
      if b.id == bookmark_id then { b with last_checked_at := some t } else b) =
      (fun b : BookmarkRec => b.id == bookmark_id) := by
    funext b
    by_cases h : b.id = bookmark_id
    · simp [h]
    · simp [h]
  rw [hpg]
  cases hf : List.find? (fun b : BookmarkRec => b.id == bookmark_id) l with
  | none => simp
  | some b =>
    have hb : b.id = bookmark_id := by
      simpa using List.find?_some hf
    simp [hb]

theorem findBookmark_setLastChecked (db : DB) (bookmark_id : String) (t : Nat) :
    (db.setLastChecked bookmark_id t).findBookmark bookmark_id =
      (db.findBookmark bookmark_id).map
        (fun b => { b with last_checked_at := some t }) := by
  unfold DB.setLastChecked DB.findBookmark
  exact find_setLastChecked db.bookmarks bookmark_id t

/-- The rows created by the watchpoint-creation loop, made explicit:
the row for the `i`-th dict carries id `startId + i`. -/
def wpRows (startId snapshot_id : Nat) : List WpData → List WatchPointRec
  | [] => []
  | d :: rest =>
    { id := startId
      snapshot_id := snapshot_id
      field_name := d.field_name
      field_value := d.field_value
      field_type := d.field_type
      is_primary := d.is_primary.getD false } :: wpRows (startId + 1) snapshot_id rest

theorem addWatchPoints_eq (snapshot_id : Nat) :
    ∀ (l : List WpData) (db : DB),
      addWatchPoints db snapshot_id l =
        ({ db with
           watchpoints := db.watchpoints ++ wpRows db.nextId snapshot_id l
           nextId := db.nextId + l.length },
         (wpRows db.nextId snapshot_id l).zip l) := by
  intro l
  induction l with
  | nil => intro db; simp [addWatchPoints, wpRows]
  | cons d rest ih =>
    intro db
    simp only [addWatchPoints, wpRows, ih, List.length_cons, List.zip_cons_cons,
      Prod.mk.injEq, DB.mk.injEq, true_and, and_true]
    constructor
    · simp
    · omega

theorem exceptBind_ok {α β ε : Type} (a : α) (f : α → Except ε β) :
    Except.bind (Except.ok a) f = f a := rfl

theorem findBookmark_eq_of_bookmarks (db1 db2 : DB) (bookmark_id : String)
    (h : db1.bookmarks = db2.bookmarks) :
    db1.findBookmark bookmark_id = db2.findBookmark bookmark_id := by
  unfold DB.findBookmark
  rw [h]

/-- The pending database at the end of the first-snapshot branch of
`monitorChanged`, made explicit: the staged snapshot, the staged
watchpoint rows and the staged `last_checked_at` update. -/
def dbAfterFirst (env : Env) (bookmark_id content content_hash : String)
    (p0 : DB) : DB :=
  DB.setLastChecked
    { p0 with
      snapshots := p0.snapshots ++
        [{ id := p0.nextId, bookmark_id := bookmark_id,
           content_hash := content_hash, extracted_content := content }]
      watchpoints := p0.watchpoints ++
        wpRows (p0.nextId + 1) p0.nextId (extract_watchpoints env content)
      nextId := p0.nextId + 1 + (extract_watchpoints env content).length }
    bookmark_id env.now

theorem findBookmark_dbAfterFirst (env : Env)
    (bookmark_id content content_hash : String) (p0 : DB) :
    (dbAfterFirst env bookmark_id content content_hash p0).findBookmark
      bookmark_id =
    (p0.findBookmark bookmark_id).map
      (fun b => { b with last_checked_at := some env.now }) := by
  unfold dbAfterFirst
  rw [findBookmark_setLastChecked]
  rfl

theorem monitorChanged_none_run (env : Env) (hc : ∀ n, env.commitOk n = true)
    (bookmark_id : String) (bm : BookmarkRec) (content content_hash : String)
    (c : Ctx) :
    monitorChanged env bookmark_id bm content content_hash none c =
      .ok { sess :=
              { committed := dbAfterFirst env bookmark_id content content_hash
                  c.sess.pending
                pending := dbAfterFirst env bookmark_id content content_hash
                  c.sess.pending }
            commits := c.commits + 3
            trace := c.trace ++ [Ev.extractCall] } := by
  simp only [monitorChanged, Ctx.push, Ctx.stage]
  rw [commitE_of_ok env _ (hc _)]
  simp only [exceptBind_ok]
  rw [addWatchPoints_eq]
  rw [commitE_of_ok env _ (hc _)]
  simp only [exceptBind_ok]
  rw [commitE_of_ok env _ (hc _)]
  rfl

/-- The significance score the monitor persists for a scored candidate:
`analysis.get("significance_score", 0.5)` applied to the outcome of
`analyze_change_significance`. -/
def scoreOf (env : Env) (field_name old_value new_value : String) : ℚ :=
  ((analyze_change_significance env field_name old_value
      new_value).significance_score).getD (mkRat 1 2)

/-- Run of the change-detection loop when every commit succeeds: it
returns normally with the accumulated views, appends one `Change` row
per view (ids and scores in lockstep), touches no other table, emits a
view only for a field name that the old-side lookup resolves, and every
persisted score is verbatim an `analysis.get("significance_score", 0.5)`
value. -/
theorem detectChanges_run (env : Env) (hc : ∀ n, env.commitOk n = true)
    (oldMap : String → Option WatchPointRec) :
    ∀ (l : List (WatchPointRec × WpData)) (c : Ctx) (acc : List ChangeView),
    ∃ (c' : Ctx) (extra : List ChangeView) (newRecs : List ChangeRec),
      detectChanges env oldMap l c acc = .ok (c', acc ++ extra) ∧
      c'.sess.pending.bookmarks = c.sess.pending.bookmarks ∧
      c'.sess.pending.snapshots = c.sess.pending.snapshots ∧
      c'.sess.pending.watchpoints = c.sess.pending.watchpoints ∧
      c'.sess.pending.notifications = c.sess.pending.notifications ∧
      c'.sess.pending.changes = c.sess.pending.changes ++ newRecs ∧
      extra.map (fun v => (v.change_id, v.significance_score)) =
        newRecs.map (fun r => (r.id, r.significance_score)) ∧
      (∀ v ∈ extra, ∃ w, oldMap v.field_name = some w) ∧
      (∀ r ∈ newRecs, ∃ f o v, r.significance_score = scoreOf env f o v) := by
  intro l
  induction l with
  | nil =>
    intro c acc
    refine ⟨c, [], [], by simp [detectChanges], rfl, rfl, rfl, rfl, by simp,
      rfl, by simp, by simp⟩
  | cons hd rest ih =>
    intro c acc
    obtain ⟨new_wp, d⟩ := hd
    cases hm : oldMap new_wp.field_name with
    | none =>
      obtain ⟨c', extra, newRecs, h1, h2, h3, h4, h5, h6, h7, h8, h9⟩ :=
        ih c acc
      exact ⟨c', extra, newRecs, by simp [detectChanges, hm, h1],
        h2, h3, h4, h5, h6, h7, h8, h9⟩
    | some old_wp =>
      by_cases hv : old_wp.field_value ≠ new_wp.field_value
      · set ana := analyze_change_significance env new_wp.field_name
          old_wp.field_value new_wp.field_value with hana
        set change : ChangeRec :=
          { id := c.sess.pending.nextId
            watchpoint_id := new_wp.id
            old_value := old_wp.field_value
            new_value := new_wp.field_value
            change_type := ana.change_type.getD "modified"
            significance_score := ana.significance_score.getD (mkRat 1 2) } with hchange
        set view : ChangeView :=
          { field_name := new_wp.field_name
            old_value := old_wp.field_value
            new_value := new_wp.field_value
            change_type := change.change_type
            significance_score := change.significance_score
            change_id := change.id } with hview
        set c2 : Ctx :=
          { sess :=
              { committed :=
                  { c.sess.pending with
                    changes := c.sess.pending.changes ++ [change]
                    nextId := c.sess.pending.nextId + 1 }
                pending :=
                  { c.sess.pending with
                    changes := c.sess.pending.changes ++ [change]
                    nextId := c.sess.pending.nextId + 1 } }
            commits := c.commits + 1
            trace := c.trace ++ [Ev.analyzeCall new_wp.field_name] } with hc2
        have hstep :
            detectChanges env oldMap ((new_wp, d) :: rest) c acc =
              detectChanges env oldMap rest c2 (acc ++ [view]) := by
          simp only [detectChanges, hm, if_pos hv, Ctx.push, Ctx.stage]
          rw [commitE_of_ok env _ (hc _)]
        obtain ⟨c', extra, newRecs, h1, h2, h3, h4, h5, h6, h7, h8, h9⟩ :=
          ih c2 (acc ++ [view])
        refine ⟨c', view :: extra, change :: newRecs, ?_, ?_, ?_, ?_, ?_, ?_,
          ?_, ?_, ?_⟩
        · rw [hstep, h1]
          simp
        · rw [h2, hc2]
        · rw [h3, hc2]
        · rw [h4, hc2]
        · rw [h5, hc2]
        · rw [h6, hc2]
          simp
        · simp only [List.map_cons, h7]
        · intro v hvv
          rcases List.mem_cons.mp hvv with h | h
          · exact ⟨old_wp, by rw [h, hview]; exact hm⟩
          · exact h8 v h
        · intro r hr
          rcases List.mem_cons.mp hr with h | h
          · refine ⟨new_wp.field_name, old_wp.field_value, new_wp.field_value, ?_⟩
            rw [h, hchange]
            rfl
          · exact h9 r h
      · obtain ⟨c', extra, newRecs, h1, h2, h3, h4, h5, h6, h7, h8, h9⟩ :=
          ih c acc
        exact ⟨c', extra, newRecs, by simp [detectChanges, hm, if_neg hv, h1],
          h2, h3, h4, h5, h6, h7, h8, h9⟩

/-- Run of the notification step when every commit succeeds: it returns
normally, touches only the notifications table, and appends exactly one
Notification — referencing the first view whose score clears the 0.5
threshold — precisely when some view clears the threshold. -/
theorem notifyStep_run (env : Env) (hc : ∀ n, env.commitOk n = true)
    (bm : BookmarkRec) (c : Ctx) (views : List ChangeView) :
    ∃ c' : Ctx, notifyStep env bm c views = .ok c' ∧
      c'.sess.pending.bookmarks = c.sess.pending.bookmarks ∧
      c'.sess.pending.snapshots = c.sess.pending.snapshots ∧
      c'.sess.pending.watchpoints = c.sess.pending.watchpoints ∧
      c'.sess.pending.changes = c.sess.pending.changes ∧
      (match views.filter (fun ch => mkRat 1 2 ≤ ch.significance_score) with
       | [] => c'.sess.pending.notifications = c.sess.pending.notifications
       | first :: _ =>
         ∃ notif : NotificationRec,
           c'.sess.pending.notifications =
             c.sess.pending.notifications ++ [notif] ∧
           notif.change_id = first.change_id) := by
  cases views with
  | nil =>
    exact ⟨c, by simp [notifyStep], rfl, rfl, rfl, rfl, by simp⟩
  | cons v vs =>
    cases hf : List.filter (fun ch => mkRat 1 2 ≤ ch.significance_score) (v :: vs) with
    | nil =>
      refine ⟨c, ?_, rfl, rfl, rfl, rfl, rfl⟩
      simp only [notifyStep, List.isEmpty_cons, Bool.false_eq_true, if_false, hf]
    | cons first restf =>
      have heq : notifyStep env bm c (v :: vs) =
          .ok { sess :=
                  { committed :=
                      { c.sess.pending with
                        notifications := c.sess.pending.notifications ++
                          [{ id := c.sess.pending.nextId
                             user_id := bm.user_id
                             bookmark_id := bm.id
                             change_id := first.change_id
                             notification_type := "change"
                             title := (generate_notification_message env
                               (pyOr bm.title (pyOr bm.url "Your bookmark"))).title
                             message := (generate_notification_message env
                               (pyOr bm.title (pyOr bm.url "Your bookmark"))).message
                             read := false }]
                        nextId := c.sess.pending.nextId + 1 }
                    pending :=
                      { c.sess.pending with
                        notifications := c.sess.pending.notifications ++
                          [{ id := c.sess.pending.nextId
                             user_id := bm.user_id
                             bookmark_id := bm.id
                             change_id := first.change_id
                             notification_type := "change"
                             title := (generate_notification_message env
                               (pyOr bm.title (pyOr bm.url "Your bookmark"))).title
                             message := (generate_notification_message env
                               (pyOr bm.title (pyOr bm.url "Your bookmark"))).message
                             read := false }]
                        nextId := c.sess.pending.nextId + 1 } }
                commits := c.commits + 1
                trace := c.trace ++ [Ev.genMsgCall] ++ [Ev.sendCall] } := by
        simp only [notifyStep, List.isEmpty_cons, Bool.false_eq_true, if_false,
          hf, Ctx.push, Ctx.stage]
        rw [commitE_of_ok env _ (hc _)]
      exact ⟨_, heq, rfl, rfl, rfl, rfl, ⟨_, rfl, rfl⟩⟩

/-- Run of the changed-content branch against an existing prior
snapshot when every commit succeeds: the check completes, commits its
pending state, appends exactly one Snapshot, the extracted watchpoint
rows, one Change row per emitted view, and one Notification precisely
when some view clears the 0.5 threshold (referencing the first such
view). -/
theorem monitorChanged_some_run (env : Env) (hc : ∀ n, env.commitOk n = true)
    (bookmark_id : String) (bm : BookmarkRec) (content content_hash : String)
    (ls : SnapshotRec) (c : Ctx) :
    ∃ (c' : Ctx) (extra : List ChangeView) (newRecs : List ChangeRec),
      monitorChanged env bookmark_id bm content content_hash (some ls) c =
        .ok c' ∧
      c'.sess.committed = c'.sess.pending ∧
      c'.sess.pending.bookmarks = c.sess.pending.bookmarks.map (fun b =>
        if b.id == bookmark_id then { b with last_checked_at := some env.now }
        else b) ∧
      c'.sess.pending.snapshots = c.sess.pending.snapshots ++
        [{ id := c.sess.pending.nextId, bookmark_id := bookmark_id,
           content_hash := content_hash, extracted_content := content }] ∧
      c'.sess.pending.watchpoints = c.sess.pending.watchpoints ++
        wpRows (c.sess.pending.nextId + 1) c.sess.pending.nextId
          (extract_watchpoints env content) ∧
      c'.sess.pending.changes = c.sess.pending.changes ++ newRecs ∧
      extra.map (fun v => (v.change_id, v.significance_score)) =
        newRecs.map (fun r => (r.id, r.significance_score)) ∧
      (∀ r ∈ newRecs, ∃ f o v, r.significance_score = scoreOf env f o v) ∧
      (match extra.filter (fun ch => mkRat 1 2 ≤ ch.significance_score) with
       | [] => c'.sess.pending.notifications = c.sess.pending.notifications
       | first :: _ =>
         ∃ notif : NotificationRec,
           c'.sess.pending.notifications =
             c.sess.pending.notifications ++ [notif] ∧
           notif.change_id = first.change_id) := by
  obtain ⟨cd, extra, newRecs, hd1, hd2, hd3, hd4, hd5, hd6, hd7, hd8, hd9⟩ :=
    detectChanges_run env hc
      (lastByName (List.filter (fun wp => wp.snapshot_id == ls.id)
        (c.sess.pending.watchpoints ++
          wpRows (c.sess.pending.nextId + 1) c.sess.pending.nextId
            (extract_watchpoints env content))))
      ((wpRows (c.sess.pending.nextId + 1) c.sess.pending.nextId
          (extract_watchpoints env content)).zip (extract_watchpoints env content))
      { sess :=
          { committed :=
              { c.sess.pending with
                snapshots := c.sess.pending.snapshots ++
                  [{ id := c.sess.pending.nextId, bookmark_id := bookmark_id,
                     content_hash := content_hash, extracted_content := content }]
                watchpoints := c.sess.pending.watchpoints ++
                  wpRows (c.sess.pending.nextId + 1) c.sess.pending.nextId
                    (extract_watchpoints env content)
                nextId := c.sess.pending.nextId + 1 +
                  (extract_watchpoints env content).length }
            pending :=
              { c.sess.pending with
                snapshots := c.sess.pending.snapshots ++
                  [{ id := c.sess.pending.nextId, bookmark_id := bookmark_id,
                     content_hash := content_hash, extracted_content := content }]
                watchpoints := c.sess.pending.watchpoints ++
                  wpRows (c.sess.pending.nextId + 1) c.sess.pending.nextId
                    (extract_watchpoints env content)
                nextId := c.sess.pending.nextId + 1 +
                  (extract_watchpoints env content).length } }
        commits := c.commits + 1 + 1
        trace := c.trace ++ [Ev.extractCall] }
      []
  obtain ⟨cn, hn1, hn2, hn3, hn4, hn5, hn6⟩ := notifyStep_run env hc bm cd extra
  have hrun : monitorChanged env bookmark_id bm content content_hash (some ls) c =
      .ok { sess :=
              { committed := cn.sess.pending.setLastChecked bookmark_id env.now
                pending := cn.sess.pending.setLastChecked bookmark_id env.now }
            commits := cn.commits + 1
            trace := cn.trace } := by
    simp only [monitorChanged, Ctx.push, Ctx.stage]
    rw [commitE_of_ok env _ (hc _)]
    simp only [exceptBind_ok]
    rw [addWatchPoints_eq]
    rw [commitE_of_ok env _ (hc _)]
    simp only [exceptBind_ok]
    rw [hd1]
    simp only [exceptBind_ok, List.nil_append]
    rw [hn1]
    simp only [exceptBind_ok]
    rw [commitE_of_ok env _ (hc _)]
  refine ⟨_, extra, newRecs, hrun, rfl, ?_, ?_, ?_, ?_, hd7, hd9, ?_⟩
  · simp only [DB.setLastChecked, hn2, hd2]
  · simp only [DB.setLastChecked, hn3, hd3]
  · simp only [DB.setLastChecked, hn4, hd4]
  · simp only [DB.setLastChecked, hn5, hd6]
  · cases hfil : extra.filter (fun ch => mkRat 1 2 ≤ ch.significance_score) with
    | nil =>
      rw [hfil] at hn6
      simp only [DB.setLastChecked, hn6, hd5]
    | cons first restf =>
      rw [hfil] at hn6
      obtain ⟨notif, hna, hnb⟩ := hn6
      refine ⟨notif, ?_, hnb⟩
      simp only [DB.setLastChecked, hna, hd5]

/-- Full check against an existing prior snapshot with a differing
content hash, when fetch and all commits succeed: the run completes and
commits exactly one new Snapshot, the extracted watchpoint rows, one
Change row per emitted diff view, at most one Notification (appended
precisely when some view clears the 0.5 threshold, and then referencing
the first such view), and the updated last-checked timestamp. -/
theorem monitor_diff_run (env : Env) (bookmark_id : String) (s : Session)
    (bm : BookmarkRec) (ls : SnapshotRec) (content content_hash : String)
    (hpc : s.pending = s.committed)
    (hbm : s.committed.findBookmark bookmark_id = some bm)
    (hf : env.fetch = .ok content content_hash)
    (hls : s.committed.latestSnapshot bookmark_id = some ls)
    (hne : ls.content_hash ≠ content_hash)
    (hc : ∀ n, env.commitOk n = true) :
    ∃ (extra : List ChangeView) (newRecs : List ChangeRec),
      (monitor_bookmark env bookmark_id s).raised = false ∧
      (monitor_bookmark env bookmark_id s).sess.committed =
        (monitor_bookmark env bookmark_id s).sess.pending ∧
      (monitor_bookmark env bookmark_id s).sess.committed.snapshots =
        s.committed.snapshots ++
          [{ id := s.committed.nextId, bookmark_id := bookmark_id,
             content_hash := content_hash, extracted_content := content }] ∧
      (monitor_bookmark env bookmark_id s).sess.committed.watchpoints =
        s.committed.watchpoints ++
          wpRows (s.committed.nextId + 1) s.committed.nextId
            (extract_watchpoints env content) ∧
      (monitor_bookmark env bookmark_id s).sess.committed.changes =
        s.committed.changes ++ newRecs ∧
      extra.map (fun v => (v.change_id, v.significance_score)) =
        newRecs.map (fun r => (r.id, r.significance_score)) ∧
      (∀ r ∈ newRecs, ∃ f o v, r.significance_score = scoreOf env f o v) ∧
      (match extra.filter (fun ch => mkRat 1 2 ≤ ch.significance_score) with
       | [] =>
         (monitor_bookmark env bookmark_id s).sess.committed.notifications =
           s.committed.notifications
       | first :: _ =>
         ∃ notif : NotificationRec,
           (monitor_bookmark env bookmark_id s).sess.committed.notifications =
             s.committed.notifications ++ [notif] ∧
           notif.change_id = first.change_id) ∧
      (monitor_bookmark env bookmark_id s).sess.committed.lastCheckedOf
        bookmark_id = some (some env.now) := by
  obtain ⟨cdb, pdb⟩ := s
  simp only at hpc
  subst hpc
  simp only at hbm hls
  have hbne : (ls.content_hash == content_hash) = false := by
    simpa using hne
  obtain ⟨c', extra, newRecs, hrun, hcp, hbk, hsn, hwp, hch, hpair, hprov, hnot⟩ :=
    monitorChanged_some_run env hc bookmark_id bm content content_hash ls
      { sess := { committed := pdb, pending := pdb }, commits := 0,
        trace := [] ++ [Ev.fetchCall] }
  have hout : monitor_bookmark env bookmark_id { committed := pdb, pending := pdb } =
      { raised := false, sess := c'.sess, trace := c'.trace } := by
    unfold monitor_bookmark monitorBody
    simp only [hbm, hf, Ctx.push, hls, hbne, Bool.false_eq_true, if_false]
    rw [hrun]
  refine ⟨extra, newRecs, ?_, ?_, ?_, ?_, ?_, hpair, hprov, ?_, ?_⟩
  · rw [hout]
  · rw [hout]
    exact hcp
  · rw [hout]
    simp only [hcp, hsn]
  · rw [hout]
    simp only [hcp, hwp]
  · rw [hout]
    simp only [hcp, hch]
  · cases hfil : extra.filter (fun ch => mkRat 1 2 ≤ ch.significance_score) with
    | nil =>
      rw [hfil] at hnot
      rw [hout]
      simp only [hcp, hnot]
    | cons first restf =>
      rw [hfil] at hnot
      obtain ⟨notif, hna, hnb⟩ := hnot
      refine ⟨notif, ?_, hnb⟩
      rw [hout]
      simp only [hcp, hna]
  · rw [hout]
    show c'.sess.committed.lastCheckedOf bookmark_id = some (some env.now)
    unfold DB.lastCheckedOf DB.findBookmark
    rw [hcp, hbk]
    dsimp only
    rw [find_setLastChecked]
    unfold DB.findBookmark at hbm
    rw [hbm]
    rfl

/-- Filtering on the 0.5 threshold commutes with projecting each view
(resp. row) to its `(id, score)` pair, so the views filter and the rows
filter stay in lockstep. -/
theorem filter_pair_transfer (extra : List ChangeView) (newRecs : List ChangeRec)
    (h : extra.map (fun v => (v.change_id, v.significance_score)) =
      newRecs.map (fun r => (r.id, r.significance_score))) :
    (extra.filter (fun ch => mkRat 1 2 ≤ ch.significance_score)).map
      (fun v => (v.change_id, v.significance_score)) =
    (newRecs.filter (fun r => mkRat 1 2 ≤ r.significance_score)).map
      (fun r => (r.id, r.significance_score)) := by
  have e1 : (extra.filter (fun ch => mkRat 1 2 ≤ ch.significance_score)).map
      (fun v => (v.change_id, v.significance_score)) =
      (extra.map (fun v => (v.change_id, v.significance_score))).filter
        (fun x => mkRat 1 2 ≤ x.2) := by
    rw [List.filter_map]
    rfl
  have e2 : (newRecs.filter (fun r => mkRat 1 2 ≤ r.significance_score)).map
      (fun r => (r.id, r.significance_score)) =
      (newRecs.map (fun r => (r.id, r.significance_score))).filter
        (fun x => mkRat 1 2 ≤ x.2) := by
    rw [List.filter_map]
    rfl
  rw [e1, e2, h]

/-! ## Claim C5 -/

/-- C5: notification gating. In a check that reaches the notifying step
(prior snapshot exists, hashes differ, fetch and all commits succeed),
a Notification is created if and only if at least one Change persisted
by that check has significance score at least 0.5, and the created
Notification references (via `change_id`) the first such significant
change of the check. -/
theorem C5_notification_gating (env : Env) (bookmark_id : String) (s : Session)
    (bm : BookmarkRec) (ls : SnapshotRec) (content content_hash : String)
    (hpc : s.pending = s.committed)
    (hbm : s.committed.findBookmark bookmark_id = some bm)
    (hf : env.fetch = .ok content content_hash)
    (hls : s.committed.latestSnapshot bookmark_id = some ls)
    (hne : ls.content_hash ≠ content_hash)
    (hc : ∀ n, env.commitOk n = true) :
    ∃ newChanges : List ChangeRec,
      (monitor_bookmark env bookmark_id s).raised = false ∧
      (monitor_bookmark env bookmark_id s).sess.committed.changes =
        s.committed.changes ++ newChanges ∧
      ((∃ r ∈ newChanges, mkRat 1 2 ≤ r.significance_score) →
        ∃ notif : NotificationRec,
          (monitor_bookmark env bookmark_id s).sess.committed.notifications =
            s.committed.notifications ++ [notif] ∧
          some notif.change_id =
            ((newChanges.filter
              (fun r => mkRat 1 2 ≤ r.significance_score)).head?).map
              (fun r => r.id)) ∧
      ((¬ ∃ r ∈ newChanges, mkRat 1 2 ≤ r.significance_score) →
        (monitor_bookmark env bookmark_id s).sess.committed.notifications =
          s.committed.notifications) := by
  obtain ⟨extra, newRecs, h1, h2, h3, h4, h5, hpair, hprov, hnot, h9⟩ :=
    monitor_diff_run env bookmark_id s bm ls content content_hash
      hpc hbm hf hls hne hc
  have hmapeq := filter_pair_transfer extra newRecs hpair
  refine ⟨newRecs, h1, h5, ?_, ?_⟩
  · rintro ⟨r, hr, hscore⟩
    have hGne : newRecs.filter (fun r => mkRat 1 2 ≤ r.significance_score) ≠ [] := by
      intro hG
      rw [List.filter_eq_nil_iff] at hG
      exact hG r hr (by simpa using hscore)
    cases hfil : extra.filter (fun ch => mkRat 1 2 ≤ ch.significance_score) with
    | nil =>
      rw [hfil] at hmapeq
      exact absurd (List.map_eq_nil_iff.mp hmapeq.symm) hGne
    | cons f fs =>
      rw [hfil] at hnot hmapeq
      obtain ⟨notif, hna, hnb⟩ := hnot
      cases hgfil : newRecs.filter (fun r => mkRat 1 2 ≤ r.significance_score) with
      | nil => exact absurd hgfil hGne
      | cons g gs =>
        rw [hgfil] at hmapeq
        simp only [List.map_cons, List.cons.injEq, Prod.mk.injEq] at hmapeq
        refine ⟨notif, hna, ?_⟩
        rw [hnb, hmapeq.1.1]
        rfl
  · intro hno
    have hG : newRecs.filter (fun r => mkRat 1 2 ≤ r.significance_score) = [] := by
      rw [List.filter_eq_nil_iff]
      intro a ha hpa
      exact hno ⟨a, ha, by simpa using hpa⟩
    have hF : extra.filter (fun ch => mkRat 1 2 ≤ ch.significance_score) = [] := by
      rw [hG] at hmapeq
      simpa using List.map_eq_nil_iff.mp hmapeq
    rw [hF] at hnot
    exact hnot

/-- Neither exit of the change-detection loop ever touches the bookmarks
table: on both normal return and raised storage error, the pending and
committed bookmark rows are those at entry. -/
theorem detectChanges_bookmarks (env : Env)
    (oldMap : String → Option WatchPointRec) (B : List BookmarkRec) :
    ∀ (l : List (WatchPointRec × WpData)) (c : Ctx) (acc : List ChangeView),
      c.sess.pending.bookmarks = B → c.sess.committed.bookmarks = B →
      (∀ c' views, detectChanges env oldMap l c acc = .ok (c', views) →
        c'.sess.pending.bookmarks = B ∧ c'.sess.committed.bookmarks = B) ∧
      (∀ c', detectChanges env oldMap l c acc = .error c' →
        c'.sess.pending.bookmarks = B ∧ c'.sess.committed.bookmarks = B) := by
  intro l
  induction l with
  | nil =>
    intro c acc hp hcm
    constructor
    · intro c' views h
      simp only [detectChanges, Except.ok.injEq, Prod.mk.injEq] at h
      rw [← h.1]
      exact ⟨hp, hcm⟩
    · intro c' h
      simp [detectChanges] at h
  | cons hd rest ih =>
    intro c acc hp hcm
    obtain ⟨new_wp, d⟩ := hd
    cases hm : oldMap new_wp.field_name with
    | none =>
      have hrec := ih c acc hp hcm
      constructor
      · intro c' views h
        exact hrec.1 c' views (by simpa [detectChanges, hm] using h)
      · intro c' h
        exact hrec.2 c' (by simpa [detectChanges, hm] using h)
    | some old_wp =>
      by_cases hv : old_wp.field_value ≠ new_wp.field_value
      · set ana := analyze_change_significance env new_wp.field_name
          old_wp.field_value new_wp.field_value with hana
        set change : ChangeRec :=
          { id := c.sess.pending.nextId
            watchpoint_id := new_wp.id
            old_value := old_wp.field_value
            new_value := new_wp.field_value
            change_type := ana.change_type.getD "modified"
            significance_score := ana.significance_score.getD (mkRat 1 2) }
          with hchange
        set view : ChangeView :=
          { field_name := new_wp.field_name
            old_value := old_wp.field_value
            new_value := new_wp.field_value
            change_type := change.change_type
            significance_score := change.significance_score
            change_id := change.id } with hview
        set c1 : Ctx :=
          { sess :=
              { committed := c.sess.committed
                pending :=
                  { c.sess.pending with
                    changes := c.sess.pending.changes ++ [change]
                    nextId := c.sess.pending.nextId + 1 } }
            commits := c.commits
            trace := c.trace ++ [Ev.analyzeCall new_wp.field_name] } with hc1
        have hred : detectChanges env oldMap ((new_wp, d) :: rest) c acc =
            match commitE env c1 with
            | .error c' => .error c'
            | .ok c' => detectChanges env oldMap rest c' (acc ++ [view]) := by
          simp only [detectChanges, hm, if_pos hv, Ctx.push, Ctx.stage]
        rcases commitE_cases env c1 with hok | herr
        · rw [hok] at hred
          have hrec := ih
            { sess := { committed := c1.sess.pending, pending := c1.sess.pending }
              commits := c1.commits + 1
              trace := c1.trace } (acc ++ [view]) hp hp
          constructor
          · intro c' views h
            rw [hred] at h
            exact hrec.1 c' views h
          · intro c' h
            rw [hred] at h
            exact hrec.2 c' h
        · rw [herr] at hred
          constructor
          · intro c' views h
            rw [hred] at h
            exact absurd h (by simp)
          · intro c' h
            rw [hred] at h
            simp only [Except.error.injEq] at h
            rw [← h]
            exact ⟨hp, hcm⟩
      · have hrec := ih c acc hp hcm
        constructor
        · intro c' views h
          exact hrec.1 c' views (by simpa [detectChanges, hm, if_neg hv] using h)
        · intro c' h
          exact hrec.2 c' (by simpa [detectChanges, hm, if_neg hv] using h)

/-- Neither exit of the notification step ever touches the bookmarks
table. -/
theorem notifyStep_bookmarks (env : Env) (bm : BookmarkRec)
    (B : List BookmarkRec) (c : Ctx) (views : List ChangeView)
    (hp : c.sess.pending.bookmarks = B)
    (hcm : c.sess.committed.bookmarks = B) :
    (∀ c', notifyStep env bm c views = .ok c' →
      c'.sess.pending.bookmarks = B ∧ c'.sess.committed.bookmarks = B) ∧
    (∀ c', notifyStep env bm c views = .error c' →
      c'.sess.pending.bookmarks = B ∧ c'.sess.committed.bookmarks = B) := by
  cases views with
  | nil =>
    constructor
    · intro c' h
      simp only [notifyStep, List.isEmpty_nil, if_true, Except.ok.injEq] at h
      rw [← h]
      exact ⟨hp, hcm⟩
    · intro c' h
      simp [notifyStep] at h
  | cons v vs =>
    cases hf : List.filter (fun ch => mkRat 1 2 ≤ ch.significance_score) (v :: vs) with
    | nil =>
      constructor
      · intro c' h
        simp only [notifyStep, List.isEmpty_cons, Bool.false_eq_true, if_false,
          hf, Except.ok.injEq] at h
        rw [← h]
        exact ⟨hp, hcm⟩
      · intro c' h
        simp only [notifyStep, List.isEmpty_cons, Bool.false_eq_true, if_false,
          hf] at h
        exact Except.noConfusion h
    | cons first restf =>
      set notif : NotificationRec :=
        { id := c.sess.pending.nextId
          user_id := bm.user_id
          bookmark_id := bm.id
          change_id := first.change_id
          notification_type := "change"
          title := (generate_notification_message env
            (pyOr bm.title (pyOr bm.url "Your bookmark"))).title
          message := (generate_notification_message env
            (pyOr bm.title (pyOr bm.url "Your bookmark"))).message
          read := false } with hnotif
      set c1 : Ctx :=
        { sess :=
            { committed := c.sess.committed
              pending :=
                { c.sess.pending with
                  notifications := c.sess.pending.notifications ++ [notif]
                  nextId := c.sess.pending.nextId + 1 } }
          commits := c.commits
          trace := c.trace ++ [Ev.genMsgCall] } with hc1
      have hred : notifyStep env bm c (v :: vs) =
          match commitE env c1 with
          | .error c' => .error c'
          | .ok c' => .ok (c'.push .sendCall) := by
        simp only [notifyStep, List.isEmpty_cons, Bool.false_eq_true, if_false,
          hf, Ctx.push, Ctx.stage]
      rcases commitE_cases env c1 with hok | herr
      · rw [hok] at hred
        constructor
        · intro c' h
          rw [hred] at h
          simp only [Except.ok.injEq] at h
          rw [← h]
          exact ⟨hp, hp⟩
        · intro c' h
          rw [hred] at h
          exact absurd h (by simp)
      · rw [herr] at hred
        constructor
        · intro c' h
          rw [hred] at h
          exact absurd h (by simp)
        · intro c' h
          rw [hred] at h
          simp only [Except.error.injEq] at h
          rw [← h]
          exact ⟨hp, hcm⟩

/-- Case analysis for a failing `Except` chain: either the head failed,
or it succeeded and the continuation failed. -/
theorem bind_error_cases {α : Type} {e : Except Ctx α} {k : α → Except Ctx Ctx}
    {c' : Ctx} (h : e.bind k = .error c') :
    (∃ a, e = .ok a ∧ k a = .error c') ∨ e = .error c' := by
  cases e with
  | ok a => exact .inl ⟨a, rfl, h⟩
  | error b =>
    right
    simpa [Except.bind] using h

theorem commitE_ok_bookmarks {env : Env} {c c' : Ctx} {B : List BookmarkRec}
    (hok : commitE env c = .ok c')
    (hp : c.sess.pending.bookmarks = B)
    (_hcm : c.sess.committed.bookmarks = B) :
    c'.sess.pending.bookmarks = B ∧ c'.sess.committed.bookmarks = B := by
  rcases commitE_cases env c with h | h
  · rw [h] at hok
    simp only [Except.ok.injEq] at hok
    rw [← hok]
    exact ⟨hp, hp⟩
  · rw [h] at hok
    exact absurd hok (by simp)

theorem commitE_err_bookmarks {env : Env} {c c' : Ctx} {B : List BookmarkRec}
    (herr : commitE env c = .error c')
    (hp : c.sess.pending.bookmarks = B)
    (hcm : c.sess.committed.bookmarks = B) :
    c'.sess.pending.bookmarks = B ∧ c'.sess.committed.bookmarks = B := by
  rcases commitE_cases env c with h | h
  · rw [h] at herr
    exact absurd herr (by simp)
  · rw [h] at herr
    simp only [Except.error.injEq] at herr
    rw [← herr]
    exact ⟨hp, hcm⟩

theorem commitE_err_committed {env : Env} {c c' : Ctx}
    (herr : commitE env c = .error c') :
    c'.sess.committed = c.sess.committed := by
  rcases commitE_cases env c with h | h
  · rw [h] at herr
    exact absurd herr (by simp)
  · rw [h] at herr
    simp only [Except.error.injEq] at herr
    rw [← herr]

/-- Any raised error inside the changed-content branch leaves the
committed bookmarks table exactly as it was at entry (only a terminal
successful commit could change it, and then the branch returns
normally). -/
theorem monitorChanged_bookmarks_err (env : Env) (bookmark_id : String)
    (bm : BookmarkRec) (content content_hash : String)
    (last_snapshot : Option SnapshotRec) (c : Ctx) (B : List BookmarkRec)
    (hp : c.sess.pending.bookmarks = B)
    (hcm : c.sess.committed.bookmarks = B) :
    ∀ c', monitorChanged env bookmark_id bm content content_hash
      last_snapshot c = .error c' →
      c'.sess.committed.bookmarks = B := by
  intro cerr herror
  cases last_snapshot with
  | none =>
    simp only [monitorChanged, Ctx.push] at herror
    rcases bind_error_cases herror with ⟨cA, hokA, hKA⟩ | herrA
    · have hA := commitE_ok_bookmarks hokA hp hcm
      have hAW : (addWatchPoints cA.sess.pending
          c.sess.pending.nextId (extract_watchpoints env content)).1.bookmarks =
          cA.sess.pending.bookmarks := by
        rw [addWatchPoints_eq]
      rcases bind_error_cases hKA with ⟨cB, hokB, hKB⟩ | herrB
      · have hB2 := commitE_ok_bookmarks hokB
          (show _ = B from by rw [show ({ cA with
              sess := { cA.sess with
                pending := (addWatchPoints cA.sess.pending c.sess.pending.nextId
                  (extract_watchpoints env content)).1 }
              trace := cA.trace ++ [Ev.extractCall] } : Ctx).sess.pending.bookmarks =
              cA.sess.pending.bookmarks from hAW]; exact hA.1)
          hA.2
        have hcom := commitE_err_committed hKB
        rw [hcom]
        exact hB2.2
      · exact (commitE_err_bookmarks herrB
          (show _ = B from by
            rw [show ({ cA with
              sess := { cA.sess with
                pending := (addWatchPoints cA.sess.pending c.sess.pending.nextId
                  (extract_watchpoints env content)).1 }
              trace := cA.trace ++ [Ev.extractCall] } : Ctx).sess.pending.bookmarks =
              cA.sess.pending.bookmarks from hAW]
            exact hA.1)
          hA.2).2
    · exact (commitE_err_bookmarks herrA
        (by simp only [Ctx.stage]; exact hp) hcm).2
  | some ls =>
    simp only [monitorChanged, Ctx.push] at herror
    rcases bind_error_cases herror with ⟨cA, hokA, hKA⟩ | herrA
    · have hA := commitE_ok_bookmarks hokA hp hcm
      have hAW : (addWatchPoints cA.sess.pending
          c.sess.pending.nextId (extract_watchpoints env content)).1.bookmarks =
          cA.sess.pending.bookmarks := by
        rw [addWatchPoints_eq]
      rcases bind_error_cases hKA with ⟨cB, hokB, hKB⟩ | herrB
      · have hB2 := commitE_ok_bookmarks hokB
          (show _ = B from by rw [show ({ cA with
              sess := { cA.sess with
                pending := (addWatchPoints cA.sess.pending c.sess.pending.nextId
                  (extract_watchpoints env content)).1 }
              trace := cA.trace ++ [Ev.extractCall] } : Ctx).sess.pending.bookmarks =
              cA.sess.pending.bookmarks from hAW]; exact hA.1)
          hA.2
        have hdet := detectChanges_bookmarks env
          (lastByName (cB.sess.pending.watchpoints.filter
            (fun wp => wp.snapshot_id == ls.id)))
          B
          (addWatchPoints cA.sess.pending c.sess.pending.nextId
            (extract_watchpoints env content)).2 cB [] hB2.1 hB2.2
        rcases bind_error_cases hKB with ⟨res, hokD, hKD⟩ | herrD
        · have hres := hdet.1 res.1 res.2 (by rw [hokD])
          have hns := notifyStep_bookmarks env bm B res.1 res.2 hres.1 hres.2
          rcases bind_error_cases hKD with ⟨cN, hokN, hKN⟩ | herrN
          · have hN := hns.1 cN hokN
            have hcom := commitE_err_committed hKN
            rw [hcom]
            exact hN.2
          · exact (hns.2 cerr herrN).2
        · exact (hdet.2 cerr herrD).2
      · exact (commitE_err_bookmarks herrB
          (show _ = B from by
            rw [show ({ cA with
              sess := { cA.sess with
                pending := (addWatchPoints cA.sess.pending c.sess.pending.nextId
                  (extract_watchpoints env content)).1 }
              trace := cA.trace ++ [Ev.extractCall] } : Ctx).sess.pending.bookmarks =
              cA.sess.pending.bookmarks from hAW]
            exact hA.1)
          hA.2).2
    · exact (commitE_err_bookmarks herrA
        (by simp only [Ctx.stage]; exact hp) hcm).2

/-- Any raised error inside the body of `monitor_bookmark` leaves the
committed bookmarks table exactly as it was when the check began. -/
theorem monitorBody_bookmarks_err (env : Env) (bookmark_id : String) (c : Ctx)
    (B : List BookmarkRec)
    (hp : c.sess.pending.bookmarks = B)
    (hcm : c.sess.committed.bookmarks = B) :
    ∀ c', monitorBody env bookmark_id c = .error c' →
      c'.sess.committed.bookmarks = B := by
  intro cerr herror
  cases hfb : c.sess.pending.findBookmark bookmark_id with
  | none =>
    simp [monitorBody, hfb] at herror
  | some bm =>
    cases hfetch : env.fetch with
    | err =>
      simp only [monitorBody, hfb, hfetch, Ctx.push, Except.error.injEq] at herror
      rw [← herror]
      exact hcm
    | ok content content_hash =>
      cases hls : c.sess.pending.latestSnapshot bookmark_id with
      | some ls =>
        by_cases hh : (ls.content_hash == content_hash) = true
        · simp only [monitorBody, hfb, hfetch, hls, hh, if_true, Ctx.push] at herror
          have hcom := commitE_err_committed herror
          rw [hcom]
          exact hcm
        · have hh2 : (ls.content_hash == content_hash) = false := by
            simpa using hh
          simp only [monitorBody, hfb, hfetch, hls, hh2, Bool.false_eq_true,
            if_false, Ctx.push] at herror
          exact monitorChanged_bookmarks_err env bookmark_id bm content
            content_hash (some ls)
            { sess := c.sess, commits := c.commits,
              trace := c.trace ++ [Ev.fetchCall] } B hp hcm cerr herror
      | none =>
        simp only [monitorBody, hfb, hfetch, hls, Ctx.push] at herror
        exact monitorChanged_bookmarks_err env bookmark_id bm content
          content_hash none
          { sess := c.sess, commits := c.commits,
            trace := c.trace ++ [Ev.fetchCall] } B hp hcm cerr herror

/-! ## Concrete fixtures for counterexamples and witnesses -/

/-- A sample bookmark. -/
def bm1 : BookmarkRec :=
  { id := "b1"
    user_id := "u1"
    title := some "Shoes"
    url := some "http://shop/x"
    content_type := "url"
    last_checked_at := none }

/-- A database holding `bm1`, one prior snapshot (hash `"h0"`) and one
prior watchpoint `price = "10"` on that snapshot. -/
def dbPrice : DB :=
  { bookmarks := [bm1]
    snapshots :=
      [{ id := 0, bookmark_id := "b1", content_hash := "h0",
         extracted_content := "old" }]
    watchpoints :=
      [{ id := 1, snapshot_id := 0, field_name := "price", field_value := "10",
         field_type := some "currency", is_primary := true }]
    changes := []
    notifications := []
    nextId := 2 }

/-- A database holding only `bm1`, with no snapshots. -/
def dbFresh : DB :=
  { bookmarks := [bm1]
    snapshots := []
    watchpoints := []
    changes := []
    notifications := []
    nextId := 0 }

/-- An environment whose fetch yields hash `"h1"` for content `"newc"`,
whose extraction yields one `price = "20"` watchpoint, whose analysis
returns significance `3/2` (out of range) with kind `"increase"`, and
whose commits all succeed. -/
def envPrice : Env :=
  { fetch := .ok "newc" "h1"
    extract := .ok
      [{ field_name := "price", field_value := "20",
         field_type := some "currency", is_primary := some true }]
    analyze := fun _ _ _ =>
      .ok { significance_score := some (mkRat 3 2), change_type := some "increase" }
    genMsg := .ok { title := some "T", message := some "M" }
    commitOk := fun _ => true
    now := 42 }

/-! ## Claim C10 -/

/-- C10: for a bookmark identifier with no matching `Bookmark` row,
`monitor_bookmark` returns normally (nothing is raised), leaves the
session untouched (no database write of any kind) and makes no external
call. -/
theorem C10_missing_bookmark_noop (env : Env) (bookmark_id : String) (s : Session)
    (h : s.pending.findBookmark bookmark_id = none) :
    monitor_bookmark env bookmark_id s =
      { raised := false, sess := s, trace := [] } := by
  unfold monitor_bookmark monitorBody
  simp [h]

theorem C10_witness :
    monitor_bookmark envPrice "missing" { committed := dbFresh, pending := dbFresh } =
      { raised := false
        sess := { committed := dbFresh, pending := dbFresh }
        trace := [] } :=
  C10_missing_bookmark_noop envPrice "missing" _ (by rfl)

/-! ## Claim C6 -/

/-- Registry for the C6 scenario: user `"u"` has connections 0 and 1. -/
def regC6 : Registry := [("u", [0, 1])]

/-- Sends to connection 0 fail; all other sends succeed. -/
def sendOkC6 : Conn → Bool := fun c => !(c == 0)

/-- C6 counterexample: sending to connection 0 of user `"u"` raises, the
error is caught (the call still returns, and connection 1 is still
attempted afterwards), but the failed connection 0 is NOT unregistered:
the registry after the call still holds both connections, contradicting
the claim that the failed connection is removed from the registry. -/
theorem C6_counterexample :
    (ConnectionManager.send_personal_message sendOkC6 regC6 "u").2 =
      [(0, false), (1, true)] ∧
    (ConnectionManager.send_personal_message sendOkC6 regC6 "u").1 = regC6 ∧
    ConnectionManager.lookup
      (ConnectionManager.send_personal_message sendOkC6 regC6 "u").1 "u" =
      some [0, 1] := by
  decide

/-- C6 (amended): when sending to an individual registered connection
raises, the error is caught and logged and delivery still proceeds to
the rest (every registered connection of the user is attempted, in
order), but the failed connection is not unregistered: the registry is
returned unchanged. -/
theorem C6_send_caught_registry_unchanged (sendOk : Conn → Bool)
    (m : Registry) (user_id : String) :
    (ConnectionManager.send_personal_message sendOk m user_id).1 = m ∧
    (ConnectionManager.send_personal_message sendOk m user_id).2.map Prod.fst =
      (ConnectionManager.lookup m user_id).getD [] := by
  unfold ConnectionManager.send_personal_message
  cases h : ConnectionManager.lookup m user_id with
  | none => simp [h]
  | some l =>
    simp only [h, Option.getD_some, true_and]
    rw [List.map_map,
      show (Prod.fst ∘ fun c : Conn => (c, sendOk c)) = id from rfl]
    exact List.map_id l

/-! ## Claim C7 -/

/-- Registry for the C7 scenario: user `"u"` has connections 0 and 1. -/
def regC7 : Registry := [("u", [0, 1])]

/-- C7 counterexample: after unregistering `("u", 0)` once (leaving the
other connection 1 registered), unregistering the same pair a second
time raises `ValueError` instead of succeeding, contradicting the claim
that double-unregister succeeds regardless of remaining connections. -/
theorem C7_counterexample :
    ConnectionManager.disconnect regC7 "u" 0 = .ok [("u", [1])] ∧
    ConnectionManager.disconnect [("u", [1])] "u" 0 = .error () :=
  ⟨rfl, rfl⟩

theorem listRemove_eq_none {l : List Conn} {x : Conn} :
    ConnectionManager.listRemove l x = none ↔ x ∉ l := by
  induction l with
  | nil => simp [ConnectionManager.listRemove]
  | cons y ys ih =>
    by_cases h : y = x
    · subst h
      simp [ConnectionManager.listRemove]
    · simp [ConnectionManager.listRemove, h, ih, Ne.symm h]

/-- C7 (amended): double-unregister of the same `(user, connection)`
pair is harmless only when the first call removed the last connection
of the user (the registry entry was deleted, so the second call is a
no-op); when the user still has other registered connections, the
second call raises `ValueError` from `list.remove`. -/
theorem C7_double_disconnect (m : Registry) (user_id : String) (ws : Conn) :
    (ConnectionManager.lookup m user_id = none →
      ConnectionManager.disconnect m user_id ws = .ok m) ∧
    (∀ l, ConnectionManager.lookup m user_id = some l → ws ∉ l →
      ConnectionManager.disconnect m user_id ws = .error ()) := by
  constructor
  · intro h
    unfold ConnectionManager.disconnect
    simp [h]
  · intro l hl hws
    unfold ConnectionManager.disconnect
    simp [hl, listRemove_eq_none.mpr hws]

theorem C7_witness :
    ConnectionManager.disconnect [("v", [5])] "u" 3 = .ok [("v", [5])] ∧
    ConnectionManager.disconnect [("u", [1])] "u" 0 = .error () :=
  ⟨(C7_double_disconnect [("v", [5])] "u" 3).1 (by rfl),
   (C7_double_disconnect [("u", [1])] "u" 0).2 [1] (by rfl) (by decide)⟩

/-! ## Claim C4 -/

/-- C4: the no-change fast path. When the fetch succeeds, a latest
snapshot exists and its content hash equals the freshly fetched one
(and the one commit of the path succeeds), the check raises nothing,
creates no Snapshot, WatchPoint, Change or Notification, never invokes
field extraction (the trace is just the fetch), and still updates the
last-checked timestamp of the bookmark. -/
theorem C4_no_change_fast_path (env : Env) (bookmark_id : String) (s : Session)
    (bm : BookmarkRec) (ls : SnapshotRec) (content content_hash : String)
    (hpc : s.pending = s.committed)
    (hbm : s.committed.findBookmark bookmark_id = some bm)
    (hf : env.fetch = .ok content content_hash)
    (hls : s.committed.latestSnapshot bookmark_id = some ls)
    (hh : ls.content_hash = content_hash)
    (hc : env.commitOk 0 = true) :
    (monitor_bookmark env bookmark_id s).raised = false ∧
    (monitor_bookmark env bookmark_id s).sess.committed.snapshots =
      s.committed.snapshots ∧
    (monitor_bookmark env bookmark_id s).sess.committed.watchpoints =
      s.committed.watchpoints ∧
    (monitor_bookmark env bookmark_id s).sess.committed.changes =
      s.committed.changes ∧
    (monitor_bookmark env bookmark_id s).sess.committed.notifications =
      s.committed.notifications ∧
    (monitor_bookmark env bookmark_id s).sess.committed.lastCheckedOf bookmark_id =
      some (some env.now) ∧
    (monitor_bookmark env bookmark_id s).trace = [Ev.fetchCall] ∧
    Ev.extractCall ∉ (monitor_bookmark env bookmark_id s).trace := by
  obtain ⟨cdb, pdb⟩ := s
  simp only at hpc
  subst hpc
  simp only at hbm hls
  have hbeq : (ls.content_hash == content_hash) = true := by
    simp [hh]
  have hrun : monitor_bookmark env bookmark_id { committed := pdb, pending := pdb } =
      { raised := false
        sess := { committed := pdb.setLastChecked bookmark_id env.now
                  pending := pdb.setLastChecked bookmark_id env.now }
        trace := [Ev.fetchCall] } := by
    unfold monitor_bookmark monitorBody
    simp only [hbm, hf, hls, hbeq, if_true, Ctx.push, Ctx.stage]
    rw [commitE_of_ok env _ hc]
    rfl
  rw [hrun]
  refine ⟨rfl, ?_, ?_, ?_, ?_, ?_, rfl, by simp⟩
  · simp [DB.setLastChecked]
  · simp [DB.setLastChecked]
  · simp [DB.setLastChecked]
  · simp [DB.setLastChecked]
  · unfold DB.lastCheckedOf
    rw [findBookmark_setLastChecked, hbm]
    rfl

/-- An environment fetching the same content hash `"h0"` that the prior
snapshot of `dbPrice` already holds. -/
def envSame : Env := { envPrice with fetch := .ok "old" "h0" }

theorem C4_witness :
    (monitor_bookmark envSame "b1"
      { committed := dbPrice, pending := dbPrice }).raised = false ∧
    (monitor_bookmark envSame "b1"
      { committed := dbPrice, pending := dbPrice }).sess.committed.lastCheckedOf "b1" =
      some (some 42) ∧
    (monitor_bookmark envSame "b1"
      { committed := dbPrice, pending := dbPrice }).sess.committed.snapshots =
      dbPrice.snapshots := by
  have h := C4_no_change_fast_path envSame "b1"
    { committed := dbPrice, pending := dbPrice } bm1
    { id := 0, bookmark_id := "b1", content_hash := "h0",
      extracted_content := "old" }
    "old" "h0" rfl rfl rfl rfl rfl rfl
  exact ⟨h.1, h.2.2.2.2.2.1, h.2.1⟩

/-- Full check of an item with no prior snapshot, when fetch and all
commits succeed: the run completes and commits exactly one new
Snapshot, the extracted watchpoint rows, no Change, no Notification,
and the updated last-checked timestamp. -/
theorem monitor_first_run (env : Env) (bookmark_id : String) (s : Session)
    (bm : BookmarkRec) (content content_hash : String)
    (hpc : s.pending = s.committed)
    (hbm : s.committed.findBookmark bookmark_id = some bm)
    (hf : env.fetch = .ok content content_hash)
    (hls : s.committed.latestSnapshot bookmark_id = none)
    (hc : ∀ n, env.commitOk n = true) :
    (monitor_bookmark env bookmark_id s).raised = false ∧
    (monitor_bookmark env bookmark_id s).sess.committed.snapshots =
      s.committed.snapshots ++
        [{ id := s.committed.nextId, bookmark_id := bookmark_id,
           content_hash := content_hash, extracted_content := content }] ∧
    (monitor_bookmark env bookmark_id s).sess.committed.watchpoints =
      s.committed.watchpoints ++
        wpRows (s.committed.nextId + 1) s.committed.nextId
          (extract_watchpoints env content) ∧
    (monitor_bookmark env bookmark_id s).sess.committed.changes =
      s.committed.changes ∧
    (monitor_bookmark env bookmark_id s).sess.committed.notifications =
      s.committed.notifications ∧
    (monitor_bookmark env bookmark_id s).sess.committed.lastCheckedOf bookmark_id =
      some (some env.now) := by
  obtain ⟨cdb, pdb⟩ := s
  simp only at hpc
  subst hpc
  simp only at hbm hls
  have hrun : monitor_bookmark env bookmark_id { committed := pdb, pending := pdb } =
      { raised := false
        sess := { committed := dbAfterFirst env bookmark_id content content_hash pdb
                  pending := dbAfterFirst env bookmark_id content content_hash pdb }
        trace := [Ev.fetchCall, Ev.extractCall] } := by
    unfold monitor_bookmark monitorBody
    simp only [hbm, hf, Ctx.push, hls]
    rw [monitorChanged_none_run env hc]
    rfl
  rw [hrun]
  refine ⟨rfl, ?_, ?_, ?_, ?_, ?_⟩
  · simp [dbAfterFirst, DB.setLastChecked]
  · simp [dbAfterFirst, DB.setLastChecked]
  · simp [dbAfterFirst, DB.setLastChecked]
  · simp [dbAfterFirst, DB.setLastChecked]
  · unfold DB.lastCheckedOf
    rw [findBookmark_dbAfterFirst, hbm]
    rfl

/-! ## Claim C8 -/

/-- C8: for an item with zero prior snapshots, a successful check (fetch
succeeds, commits succeed) raises nothing, appends exactly one new
Snapshot (holding the fetched hash and content), creates zero Changes
and zero Notifications, and updates the last-checked timestamp of the
bookmark. -/
theorem C8_first_snapshot (env : Env) (bookmark_id : String) (s : Session)
    (bm : BookmarkRec) (content content_hash : String)
    (hpc : s.pending = s.committed)
    (hbm : s.committed.findBookmark bookmark_id = some bm)
    (hf : env.fetch = .ok content content_hash)
    (hls : s.committed.latestSnapshot bookmark_id = none)
    (hc : ∀ n, env.commitOk n = true) :
    (monitor_bookmark env bookmark_id s).raised = false ∧
    (monitor_bookmark env bookmark_id s).sess.committed.snapshots =
      s.committed.snapshots ++
        [{ id := s.committed.nextId, bookmark_id := bookmark_id,
           content_hash := content_hash, extracted_content := content }] ∧
    (monitor_bookmark env bookmark_id s).sess.committed.changes =
      s.committed.changes ∧
    (monitor_bookmark env bookmark_id s).sess.committed.notifications =
      s.committed.notifications ∧
    (monitor_bookmark env bookmark_id s).sess.committed.lastCheckedOf bookmark_id =
      some (some env.now) := by
  obtain ⟨h1, h2, _, h4, h5, h6⟩ :=
    monitor_first_run env bookmark_id s bm content content_hash
      hpc hbm hf hls hc
  exact ⟨h1, h2, h4, h5, h6⟩

/-- An environment for a first-ever check: fetch succeeds, extraction
yields one field, all commits succeed. -/
def envFirst : Env := { envPrice with fetch := .ok "first content" "hA" }

theorem C8_witness :
    (monitor_bookmark envFirst "b1"
      { committed := dbFresh, pending := dbFresh }).raised = false ∧
    (monitor_bookmark envFirst "b1"
      { committed := dbFresh, pending := dbFresh }).sess.committed.snapshots =
      [{ id := 0, bookmark_id := "b1", content_hash := "hA",
         extracted_content := "first content" }] ∧
    (monitor_bookmark envFirst "b1"
      { committed := dbFresh, pending := dbFresh }).sess.committed.changes = [] ∧
    (monitor_bookmark envFirst "b1"
      { committed := dbFresh, pending := dbFresh }).sess.committed.notifications =
      [] := by
  have h := C8_first_snapshot envFirst "b1"
    { committed := dbFresh, pending := dbFresh } bm1 "first content" "hA"
    rfl rfl rfl rfl (fun _ => rfl)
  exact ⟨h.1, h.2.1, h.2.2.1, h.2.2.2.1⟩

theorem C5_witness :
    (monitor_bookmark envPrice "b1"
      { committed := dbPrice, pending := dbPrice }).raised = false ∧
    (monitor_bookmark envPrice "b1"
      { committed := dbPrice,
        pending := dbPrice }).sess.committed.notifications.length = 1 := by
  obtain ⟨newChanges, hA, hB, hC, hD⟩ :=
    C5_notification_gating envPrice "b1"
      { committed := dbPrice, pending := dbPrice } bm1
      { id := 0, bookmark_id := "b1", content_hash := "h0",
        extracted_content := "old" }
      "newc" "h1" rfl rfl rfl rfl (by decide) (fun _ => rfl)
  have hL : (monitor_bookmark envPrice "b1"
      { committed := dbPrice, pending := dbPrice }).sess.committed.changes =
      [{ id := 4, watchpoint_id := 3, old_value := "10", new_value := "20",
         change_type := "increase", significance_score := mkRat 3 2 }] := by
    rfl
  have hnc : newChanges =
      [{ id := 4, watchpoint_id := 3, old_value := "10", new_value := "20",
         change_type := "increase", significance_score := mkRat 3 2 }] := by
    rw [hL] at hB
    simpa [dbPrice] using hB.symm
  obtain ⟨notif, hn1, _⟩ := hC
    ⟨{ id := 4, watchpoint_id := 3, old_value := "10", new_value := "20",
       change_type := "increase", significance_score := mkRat 3 2 },
     by simp [hnc], by norm_num⟩
  refine ⟨hA, ?_⟩
  rw [hn1]
  simp [dbPrice]

/-! ## Claim C2 -/

/-- C2 counterexample: with the significance analyzer returning the
out-of-range score 3/2, the check completes and persists a Change whose
`significance_score` is 3/2, which does not lie in [0.0, 1.0]: the
score is persisted verbatim, not clamped. -/
theorem C2_counterexample :
    (monitor_bookmark envPrice "b1"
      { committed := dbPrice, pending := dbPrice }).raised = false ∧
    (monitor_bookmark envPrice "b1"
      { committed := dbPrice, pending := dbPrice }).sess.committed.changes.map
      (fun r => r.significance_score) = [mkRat 3 2] ∧
    ¬ (mkRat 3 2 ≤ 1) := by
  refine ⟨rfl, rfl, by norm_num⟩

/-- C2 (amended): the persisted significance score is exactly the value
`analysis.get("significance_score", 0.5)` the analyzer produced — no
clamping happens — so every score persisted by a check lies in [0.0,
1.0] precisely when the analyzer outputs do. -/
theorem C2_score_passthrough (env : Env) (bookmark_id : String) (s : Session)
    (bm : BookmarkRec) (ls : SnapshotRec) (content content_hash : String)
    (hpc : s.pending = s.committed)
    (hbm : s.committed.findBookmark bookmark_id = some bm)
    (hf : env.fetch = .ok content content_hash)
    (hls : s.committed.latestSnapshot bookmark_id = some ls)
    (hne : ls.content_hash ≠ content_hash)
    (hc : ∀ n, env.commitOk n = true) :
    ∃ newChanges : List ChangeRec,
      (monitor_bookmark env bookmark_id s).sess.committed.changes =
        s.committed.changes ++ newChanges ∧
      (∀ r ∈ newChanges, ∃ f o v, r.significance_score = scoreOf env f o v) ∧
      ((∀ f o v, 0 ≤ scoreOf env f o v ∧ scoreOf env f o v ≤ 1) →
        ∀ r ∈ newChanges,
          0 ≤ r.significance_score ∧ r.significance_score ≤ 1) := by
  obtain ⟨extra, newRecs, h1, h2, h3, h4, h5, hpair, hprov, hnot, h9⟩ :=
    monitor_diff_run env bookmark_id s bm ls content content_hash
      hpc hbm hf hls hne hc
  refine ⟨newRecs, h5, hprov, ?_⟩
  intro hrange r hr
  obtain ⟨f, o, v, he⟩ := hprov r hr
  rw [he]
  exact hrange f o v

/-- The analyzer of `envPrice` with an in-range score 7/10 instead. -/
def envMod : Env :=
  { envPrice with
    analyze := fun _ _ _ =>
      .ok { significance_score := some (mkRat 7 10), change_type := some "modified" } }

theorem C2_witness :
    (monitor_bookmark envMod "b1"
      { committed := dbPrice, pending := dbPrice }).sess.committed.changes =
      [{ id := 4, watchpoint_id := 3, old_value := "10", new_value := "20",
         change_type := "modified", significance_score := mkRat 7 10 }] ∧
    (0 : ℚ) ≤ mkRat 7 10 ∧ mkRat 7 10 ≤ 1 := by
  obtain ⟨newChanges, hB, hP, hQ⟩ :=
    C2_score_passthrough envMod "b1"
      { committed := dbPrice, pending := dbPrice } bm1
      { id := 0, bookmark_id := "b1", content_hash := "h0",
        extracted_content := "old" }
      "newc" "h1" rfl rfl rfl rfl (by decide) (fun _ => rfl)
  have hL : (monitor_bookmark envMod "b1"
      { committed := dbPrice, pending := dbPrice }).sess.committed.changes =
      [{ id := 4, watchpoint_id := 3, old_value := "10", new_value := "20",
         change_type := "modified", significance_score := mkRat 7 10 }] := by
    rfl
  have hnc : newChanges =
      [{ id := 4, watchpoint_id := 3, old_value := "10", new_value := "20",
         change_type := "modified", significance_score := mkRat 7 10 }] := by
    rw [hL] at hB
    simpa [dbPrice] using hB.symm
  have hrange : ∀ f o v, 0 ≤ scoreOf envMod f o v ∧ scoreOf envMod f o v ≤ 1 := by
    intro f o v
    simp only [scoreOf, analyze_change_significance, envMod]
    norm_num
  have hb := hQ hrange
    { id := 4, watchpoint_id := 3, old_value := "10", new_value := "20",
      change_type := "modified", significance_score := mkRat 7 10 }
    (by simp [hnc])
  exact ⟨hL, hb.1, hb.2⟩

/-! ## Claim C3 -/

/-- Database whose prior snapshot has an empty field set. -/
def dbNoWp : DB :=
  { bookmarks := [bm1]
    snapshots :=
      [{ id := 0, bookmark_id := "b1", content_hash := "h0",
         extracted_content := "old" }]
    watchpoints := []
    changes := []
    notifications := []
    nextId := 1 }

/-- Extraction yields the field `stock`, absent from the prior field
set. -/
def envAdd : Env :=
  { envPrice with
    extract := .ok
      [{ field_name := "stock", field_value := "5",
         field_type := some "number", is_primary := some true }] }

/-- C3 counterexample: the new snapshot contains the field `stock`,
whose name is absent from the prior field set, yet the check emits no
candidate at all for it: no Change row is created and the significance
analyzer is never invoked (the trace holds no analyze call), so no
candidate classified `added` exists, contradicting the claim. -/
theorem C3_counterexample :
    (monitor_bookmark envAdd "b1"
      { committed := dbNoWp, pending := dbNoWp }).raised = false ∧
    (monitor_bookmark envAdd "b1"
      { committed := dbNoWp, pending := dbNoWp }).sess.committed.watchpoints.map
      (fun wp => wp.field_name) = ["stock"] ∧
    (monitor_bookmark envAdd "b1"
      { committed := dbNoWp, pending := dbNoWp }).sess.committed.changes = [] ∧
    (monitor_bookmark envAdd "b1"
      { committed := dbNoWp, pending := dbNoWp }).trace =
      [Ev.fetchCall, Ev.extractCall] := by
  exact ⟨rfl, rfl, rfl, rfl⟩

/-- C3 (amended): a field of the new snapshot whose name is absent from
the old-side lookup produces no diff candidate whatsoever — the loop
skips it silently (no `added` classification, no Change, no analysis);
only fields present on both sides with differing values yield
candidates. -/
theorem C3_absent_field_no_candidate (env : Env)
    (hc : ∀ n, env.commitOk n = true)
    (oldMap : String → Option WatchPointRec) (name : String)
    (hname : oldMap name = none)
    (l : List (WatchPointRec × WpData)) (c : Ctx) :
    ∃ (c' : Ctx) (views : List ChangeView),
      detectChanges env oldMap l c [] = .ok (c', views) ∧
      ∀ v ∈ views, v.field_name ≠ name := by
  obtain ⟨c', extra, newRecs, h1, _, _, _, _, _, _, h8, _⟩ :=
    detectChanges_run env hc oldMap l c []
  refine ⟨c', extra, by simpa using h1, ?_⟩
  intro v hv heq
  obtain ⟨w, hw⟩ := h8 v hv
  rw [heq, hname] at hw
  exact Option.noConfusion hw

theorem C3_witness :
    detectChanges envAdd (fun _ => none)
      [({ id := 2, snapshot_id := 1, field_name := "stock", field_value := "5",
          field_type := some "number", is_primary := true },
        { field_name := "stock", field_value := "5",
          field_type := some "number", is_primary := some true })]
      { sess := { committed := dbNoWp, pending := dbNoWp }, commits := 0,
        trace := [] } [] =
      .ok ({ sess := { committed := dbNoWp, pending := dbNoWp }, commits := 0,
             trace := [] }, []) := by
  obtain ⟨c', views, h1, h2⟩ :=
    C3_absent_field_no_candidate envAdd (fun _ => rfl) (fun _ => none) "stock"
      rfl
      [({ id := 2, snapshot_id := 1, field_name := "stock", field_value := "5",
          field_type := some "number", is_primary := true },
        { field_name := "stock", field_value := "5",
          field_type := some "number", is_primary := some true })]
      { sess := { committed := dbNoWp, pending := dbNoWp }, commits := 0,
        trace := [] }
  exact rfl

/-! ## Claim C9 -/

/-- C9: fallback on extraction failure. When the Field Extractor call
fails and the check creates a snapshot (fetch succeeds, commits
succeed, and either no prior snapshot exists or its hash differs), the
field set of the resulting snapshot is exactly one fallback row: name
the generic placeholder `content`, value the first 500 characters of
the content, and `is_primary = true`. -/
theorem C9_extraction_fallback (env : Env) (bookmark_id : String) (s : Session)
    (bm : BookmarkRec) (content content_hash : String)
    (hpc : s.pending = s.committed)
    (hbm : s.committed.findBookmark bookmark_id = some bm)
    (hf : env.fetch = .ok content content_hash)
    (hx : env.extract = .failed)
    (hc : ∀ n, env.commitOk n = true)
    (hls : s.committed.latestSnapshot bookmark_id = none ∨
      ∃ ls : SnapshotRec, s.committed.latestSnapshot bookmark_id = some ls ∧
        ls.content_hash ≠ content_hash) :
    (monitor_bookmark env bookmark_id s).raised = false ∧
    (monitor_bookmark env bookmark_id s).sess.committed.watchpoints =
      s.committed.watchpoints ++
        [{ id := s.committed.nextId + 1
           snapshot_id := s.committed.nextId
           field_name := "content"
           field_value := content.take 500
           field_type := some "text"
           is_primary := true }] := by
  have hxw : extract_watchpoints env content =
      [{ field_name := "content", field_value := content.take 500,
         field_type := some "text", is_primary := some true }] := by
    simp [extract_watchpoints, hx]
  cases hls with
  | inl hnone =>
    obtain ⟨h1, _, h3, _, _, _⟩ :=
      monitor_first_run env bookmark_id s bm content content_hash
        hpc hbm hf hnone hc
    refine ⟨h1, ?_⟩
    rw [h3, hxw]
    simp [wpRows]
  | inr hsome =>
    obtain ⟨ls, hlseq, hne⟩ := hsome
    obtain ⟨extra, newRecs, h1, h2, h3, h4, h5, hpair, hprov, hnot, h9⟩ :=
      monitor_diff_run env bookmark_id s bm ls content content_hash
        hpc hbm hf hlseq hne hc
    refine ⟨h1, ?_⟩
    rw [h4, hxw]
    simp [wpRows]

/-- Extraction fails for a text item holding `"hello world"`. -/
def envFb : Env :=
  { envPrice with fetch := .ok "hello world" "hB", extract := .failed }

theorem C9_witness :
    (monitor_bookmark envFb "b1"
      { committed := dbFresh, pending := dbFresh }).raised = false ∧
    (monitor_bookmark envFb "b1"
      { committed := dbFresh, pending := dbFresh }).sess.committed.watchpoints =
      [{ id := 1, snapshot_id := 0, field_name := "content",
         field_value := "hello world".take 500, field_type := some "text",
         is_primary := true }] := by
  have h := C9_extraction_fallback envFb "b1"
    { committed := dbFresh, pending := dbFresh } bm1 "hello world" "hB"
    rfl rfl rfl rfl (fun _ => rfl) (Or.inl rfl)
  refine ⟨h.1, ?_⟩
  rw [h.2]
  rfl

/-! ## Claim C1 -/

/-- Environment for the C1 scenario: only the first commit of the check
(the snapshot commit) succeeds; the next commit (the watchpoint rows)
raises a storage error. -/
def envC1 : Env := { envPrice with commitOk := fun n => n == 0 }

/-- C1 counterexample: the check raises (the watchpoint commit fails),
yet the new Snapshot committed earlier in the same check survives in
the durable state: the database grew from one snapshot to two, so a
database-visible effect of the failed check remains, contradicting the
claim that no Snapshot created during the check is persisted. -/
theorem C1_counterexample :
    dbPrice.snapshots.length = 1 ∧
    (monitor_bookmark envC1 "b1"
      { committed := dbPrice, pending := dbPrice }).raised = true ∧
    (monitor_bookmark envC1 "b1"
      { committed := dbPrice, pending := dbPrice }).sess.committed.snapshots =
      [{ id := 0, bookmark_id := "b1", content_hash := "h0",
         extracted_content := "old" },
       { id := 2, bookmark_id := "b1", content_hash := "h1",
         extracted_content := "newc" }] := by
  exact ⟨rfl, rfl, rfl⟩

/-- C1 (amended): an unhandled failure after `Fetching` rolls back only
the uncommitted portion of the check: the error is re-raised, the
pending session state is reset to the committed state, and the
bookmarks table — in particular every `last_checked_at` — is exactly as
before the check; but rows committed by earlier commits within the same
check (snapshot, watchpoints, changes, notification) survive, as the
counterexample shows. -/
theorem C1_rollback_uncommitted (env : Env) (bookmark_id : String) (s : Session)
    (hpc : s.pending = s.committed)
    (hr : (monitor_bookmark env bookmark_id s).raised = true) :
    (monitor_bookmark env bookmark_id s).sess.pending =
      (monitor_bookmark env bookmark_id s).sess.committed ∧
    (monitor_bookmark env bookmark_id s).sess.committed.bookmarks =
      s.committed.bookmarks ∧
    (monitor_bookmark env bookmark_id s).sess.committed.lastCheckedOf
      bookmark_id = s.committed.lastCheckedOf bookmark_id := by
  obtain ⟨cdb, pdb⟩ := s
  simp only at hpc
  subst hpc
  cases hbody : monitorBody env bookmark_id
      { sess := { committed := pdb, pending := pdb }, commits := 0,
        trace := [] } with
  | ok cok =>
    have hout : monitor_bookmark env bookmark_id
        { committed := pdb, pending := pdb } =
        { raised := false, sess := cok.sess, trace := cok.trace } := by
      unfold monitor_bookmark
      rw [hbody]
    rw [hout] at hr
    exact absurd hr (by simp)
  | error cerr =>
    have hout : monitor_bookmark env bookmark_id
        { committed := pdb, pending := pdb } =
        { raised := true, sess := cerr.sess.rollback, trace := cerr.trace } := by
      unfold monitor_bookmark
      rw [hbody]
    have hB := monitorBody_bookmarks_err env bookmark_id
      { sess := { committed := pdb, pending := pdb }, commits := 0, trace := [] }
      pdb.bookmarks rfl rfl cerr hbody
    rw [hout]
    refine ⟨rfl, hB, ?_⟩
    show cerr.sess.rollback.committed.lastCheckedOf bookmark_id =
      pdb.lastCheckedOf bookmark_id
    unfold DB.lastCheckedOf DB.findBookmark
    rw [show cerr.sess.rollback.committed.bookmarks = pdb.bookmarks from hB]

theorem C1_witness :
    (monitor_bookmark envC1 "b1"
      { committed := dbPrice, pending := dbPrice }).sess.pending =
      (monitor_bookmark envC1 "b1"
        { committed := dbPrice, pending := dbPrice }).sess.committed ∧
    (monitor_bookmark envC1 "b1"
      { committed := dbPrice, pending := dbPrice }).sess.committed.lastCheckedOf
      "b1" = some none := by
  have h := C1_rollback_uncommitted envC1 "b1"
    { committed := dbPrice, pending := dbPrice } rfl rfl
  refine ⟨h.1, ?_⟩
  rw [h.2.2]
  rfl

end Keepshot
